import Mathlib

/-!
Verification of the thriftrw-go binary protocol stream reader
(`protocol/binary/stream_reader.go`) and of the enum compiler
(`compile`, specified via its tests), against the repository's
specification.

The byte source wrapped by `StreamReader` is modelled as a `List Nat`
of bytes; each reader operation consumes bytes from the front and
returns the remaining stream.  Errors produced by the Go code are
modelled by the inductive `GoErr`; `GoErr.eof` stands for Go's plain
`io.EOF`, which the streaming reader converts to
`io.ErrUnexpectedEOF` (`GoErr.unexpectedEOF`), see `read` and
`discard` in the source.
-/

/-- Errors surfaced by the stream reader.  `eof` models plain `io.EOF`
(present in the error vocabulary of the Go environment but, per the
conversion in `read`/`discard`, never returned by the streaming
reader); `outOfFuel` is an artifact of the fuel-bounded model of the
recursive `Skip` and never corresponds to a Go behaviour. -/
inductive GoErr where
  | eof
  | unexpectedEOF
  | invalidBool (b : Nat)
  | invalidStop (v : Int)
  | negLength (v : Int)
  | unknownType (t : Int)
  | outOfFuel
  deriving DecidableEq, Repr

/-- Wire type codes, from the `wire` package (values fixed by the spec,
section 3): `BOOL=2, I8=3, DOUBLE=4, I16=6, I32=8, I64=10, BINARY=11,
STRUCT=12, MAP=13, SET=14, LIST=15`. -/
def TBool : Int := 2

def TI8 : Int := 3

def TDouble : Int := 4

def TI16 : Int := 6

def TI32 : Int := 8

def TI64 : Int := 10

def TBinary : Int := 11

def TStruct : Int := 12

def TMap : Int := 13

def TSet : Int := 14

def TList : Int := 15

/-- Two's-complement reinterpretation of a natural number as a signed
`w`-bit integer (models Go's `int8(..)`, `int16(..)`, ... casts). -/
def toSigned (w : Nat) (n : Nat) : Int :=
  if n % 2 ^ w < 2 ^ (w - 1) then (n % 2 ^ w : Int)
  else (n % 2 ^ w : Int) - 2 ^ w

/-- Big-endian interpretation of a byte list as an unsigned number
(models `bigEndian.Uint16/Uint32/Uint64`). -/
def beNat : List Nat → Nat
  | [] => 0
  | b :: rest => b * 256 ^ rest.length + beNat rest

/-- Mirrors `StreamReader.read`: read exactly `k` bytes from the
source.  The source returning `io.EOF`, or delivering fewer than `k`
bytes, is reported as `io.ErrUnexpectedEOF` ("All EOFs are unexpected
when streaming"). -/
def readBytes : Nat → List Nat → Except GoErr (List Nat × List Nat)
  | 0, s => .ok ([], s)
  | _ + 1, [] => .error .unexpectedEOF
  | k + 1, b :: s =>
    match readBytes k s with
    | .error e => .error e
    | .ok (bs, rest) => .ok (b :: bs, rest)

/-- Mirrors `StreamReader.discard`: `io.CopyN` to `ioutil.Discard`,
with `io.EOF` (fewer than `k` bytes available) converted to
`io.ErrUnexpectedEOF`. -/
def discardBytes : Nat → List Nat → Except GoErr (List Nat)
  | 0, s => .ok s
  | _ + 1, [] => .error .unexpectedEOF
  | k + 1, _ :: s => discardBytes k s

/-- Mirrors `StreamReader.ReadBool`: one byte, `0` is `false`, `1` is
`true`, anything else is an invalid-bool error. -/
def ReadBool (s : List Nat) : Except GoErr (Bool × List Nat) :=
  match readBytes 1 s with
  | .error e => .error e
  | .ok (bs, rest) =>
    if bs.headD 0 = 0 then .ok (false, rest)
    else if bs.headD 0 = 1 then .ok (true, rest)
    else .error (.invalidBool (bs.headD 0))

/-- Mirrors `StreamReader.ReadInt8`. -/
def ReadInt8 (s : List Nat) : Except GoErr (Int × List Nat) :=
  match readBytes 1 s with
  | .error e => .error e
  | .ok (bs, rest) => .ok (toSigned 8 (beNat bs), rest)

/-- Mirrors `StreamReader.ReadInt16` (big-endian). -/
def ReadInt16 (s : List Nat) : Except GoErr (Int × List Nat) :=
  match readBytes 2 s with
  | .error e => .error e
  | .ok (bs, rest) => .ok (toSigned 16 (beNat bs), rest)

/-- Mirrors `StreamReader.ReadInt32` (big-endian). -/
def ReadInt32 (s : List Nat) : Except GoErr (Int × List Nat) :=
  match readBytes 4 s with
  | .error e => .error e
  | .ok (bs, rest) => .ok (toSigned 32 (beNat bs), rest)

/-- Mirrors `StreamReader.ReadInt64` (big-endian). -/
def ReadInt64 (s : List Nat) : Except GoErr (Int × List Nat) :=
  match readBytes 8 s with
  | .error e => .error e
  | .ok (bs, rest) => .ok (toSigned 64 (beNat bs), rest)

/-- Mirrors `StreamReader.ReadBinary`, keeping Go's multiple-return
shape `([]byte, error)` so that the nil/non-nil distinction of the
returned slice is visible: the first component is `none` exactly on
the `return nil, err` paths of the source and `some bytes` otherwise.
The third component is the remaining stream (meaningful only when no
error occurred).  The `bytesAllocThreshold` branch of the source only
changes the allocation strategy (inline `make` versus streamed copy),
not which bytes are consumed nor the error returned, so it is not
reflected here. -/
def ReadBinary (s : List Nat) : Option (List Nat) × Option GoErr × List Nat :=
  match ReadInt32 s with
  | .error e => (none, some e, s)
  | .ok (len, s1) =>
    if len < 0 then (none, some (.negLength len), s1)
    else if len = 0 then (some [], none, s1)
    else
      match readBytes len.toNat s1 with
      | .error e => (none, some e, s1)
      | .ok (bs, s2) => (some bs, none, s2)

/-- Mirrors `StreamReader.ReadStructBegin`: a no-op. -/
def ReadStructBegin (s : List Nat) : Except GoErr (List Nat) :=
  .ok s

/-- Mirrors `StreamReader.ReadStructEnd`: read the stop field and fail
if it is non-zero. -/
def ReadStructEnd (s : List Nat) : Except GoErr (List Nat) :=
  match ReadInt8 s with
  | .error e => .error e
  | .ok (v, rest) => if v = 0 then .ok rest else .error (.invalidStop v)

/-- A Thrift field header, `stream.FieldHeader`. -/
structure FieldHeader where
  ftype : Int
  id : Int
  deriving DecidableEq, Repr

/-- Mirrors `StreamReader.ReadFieldBegin` exactly as written in the
source: it reads an `i8` field type, then always reads an `i16` field
id and returns `more = true`; there is no special case for the stop
byte (field type `0`). -/
def ReadFieldBegin (s : List Nat) :
    Except GoErr (FieldHeader × Bool × List Nat) :=
  match ReadInt8 s with
  | .error e => .error e
  | .ok (ft, s1) =>
    match ReadInt16 s1 with
    | .error e => .error e
    | .ok (fid, s2) => .ok (⟨ft, fid⟩, true, s2)

/-- Mirrors `StreamReader.readTypeSizeHeader`: an `i8` element type
followed by an `i32` size, negative sizes rejected. -/
def readTypeSizeHeader (s : List Nat) :
    Except GoErr (Int × Int × List Nat) :=
  match ReadInt8 s with
  | .error e => .error e
  | .ok (et, s1) =>
    match ReadInt32 s1 with
    | .error e => .error e
    | .ok (size, s2) =>
      if size < 0 then .error (.negLength size) else .ok (et, size, s2)

/-- A list or set header, `stream.ListHeader` / `stream.SetHeader`. -/
structure CollHeader where
  etype : Int
  length : Int
  deriving DecidableEq, Repr

/-- Mirrors `StreamReader.ReadListBegin`. -/
def ReadListBegin (s : List Nat) : Except GoErr (CollHeader × List Nat) :=
  match readTypeSizeHeader s with
  | .error e => .error e
  | .ok (et, size, rest) => .ok (⟨et, size⟩, rest)

/-- Mirrors `StreamReader.ReadSetBegin`. -/
def ReadSetBegin (s : List Nat) : Except GoErr (CollHeader × List Nat) :=
  match readTypeSizeHeader s with
  | .error e => .error e
  | .ok (et, size, rest) => .ok (⟨et, size⟩, rest)

/-- A map header, `stream.MapHeader`. -/
structure MapHeader where
  keyType : Int
  valueType : Int
  length : Int
  deriving DecidableEq, Repr

/-- Mirrors `StreamReader.ReadMapBegin`: `i8` key type, `i8` value
type, `i32` size, negative sizes rejected. -/
def ReadMapBegin (s : List Nat) : Except GoErr (MapHeader × List Nat) :=
  match ReadInt8 s with
  | .error e => .error e
  | .ok (k, s1) =>
    match ReadInt8 s1 with
    | .error e => .error e
    | .ok (v, s2) =>
      match ReadInt32 s2 with
      | .error e => .error e
      | .ok (size, s3) =>
        if size < 0 then .error (.negLength size)
        else .ok (⟨k, v, size⟩, s3)

/-- Modelled from the spec: `fixedWidth` is referenced by `Skip` in
`stream_reader.go` but defined in a file of the package that is not
present here.  Per the spec (section 4.2, Skip), the fixed-width
scalars are `BOOL, I8, I16, I32, I64, DOUBLE` with their obvious byte
widths; every other type has no fixed width (the function returns
`0`). -/
def fixedWidth (t : Int) : Int :=
  if t = TBool then 1
  else if t = TI8 then 1
  else if t = TDouble then 8
  else if t = TI16 then 2
  else if t = TI32 then 4
  else if t = TI64 then 8
  else 0

mutual

/-- Mirrors `StreamReader.Skip`, with a fuel bound for the recursion
(the Go recursion is bounded by the nesting depth of the input; any
fuel at least that depth yields the Go behaviour). -/
def skip : Nat → Int → List Nat → Except GoErr (List Nat)
  | 0, _, _ => .error .outOfFuel
  | fuel + 1, t, s =>
    if 0 < fixedWidth t then discardBytes (fixedWidth t).toNat s
    else if t = TBinary then
      match ReadInt32 s with
      | .error e => .error e
      | .ok (len, s1) =>
        if len < 0 then .error (.negLength len)
        else discardBytes len.toNat s1
    else if t = TStruct then skipStruct fuel s
    else if t = TMap then skipMap fuel s
    else if t = TSet then skipList fuel s
    else if t = TList then skipList fuel s
    else .error (.unknownType t)

/-- Mirrors `StreamReader.skipStruct`: read an `i8` field type; while
it is non-zero, discard the 2-byte field id, skip the field value, and
read the next field type. -/
def skipStruct : Nat → List Nat → Except GoErr (List Nat)
  | 0, _ => .error .outOfFuel
  | fuel + 1, s =>
    match ReadInt8 s with
    | .error e => .error e
    | .ok (ft, s1) =>
      if ft = 0 then .ok s1
      else
        match discardBytes 2 s1 with
        | .error e => .error e
        | .ok s2 =>
          match skip fuel ft s2 with
          | .error e => .error e
          | .ok s3 => skipStruct fuel s3

/-- Mirrors `StreamReader.skipMap`: read key type, value type and
size; reject negative sizes; when both key and value are fixed-width,
discard `size * (keyWidth + valueWidth)` bytes, otherwise skip
`size` key/value pairs one at a time. -/
def skipMap : Nat → List Nat → Except GoErr (List Nat)
  | 0, _ => .error .outOfFuel
  | fuel + 1, s =>
    match ReadInt8 s with
    | .error e => .error e
    | .ok (k, s1) =>
      match ReadInt8 s1 with
      | .error e => .error e
      | .ok (v, s2) =>
        match ReadInt32 s2 with
        | .error e => .error e
        | .ok (size, s3) =>
          if size < 0 then .error (.negLength size)
          else if 0 < fixedWidth k ∧ 0 < fixedWidth v then
            discardBytes (size * (fixedWidth k + fixedWidth v)).toNat s3
          else skipPairs fuel size.toNat k v s3

/-- The element loop of `skipMap`: skip `n` key/value pairs. -/
def skipPairs : Nat → Nat → Int → Int → List Nat → Except GoErr (List Nat)
  | 0, _, _, _, _ => .error .outOfFuel
  | _ + 1, 0, _, _, s => .ok s
  | fuel + 1, n + 1, k, v, s =>
    match skip fuel k s with
    | .error e => .error e
    | .ok s1 =>
      match skip fuel v s1 with
      | .error e => .error e
      | .ok s2 => skipPairs fuel n k v s2

/-- Mirrors `StreamReader.skipList` (used for both `LIST` and `SET`):
read the `(elementType, size)` header; when the element type is
fixed-width, discard `width * size` bytes, otherwise skip `size`
elements one at a time. -/
def skipList : Nat → List Nat → Except GoErr (List Nat)
  | 0, _ => .error .outOfFuel
  | fuel + 1, s =>
    match readTypeSizeHeader s with
    | .error e => .error e
    | .ok (et, size, s1) =>
      if 0 < fixedWidth et then
        discardBytes (fixedWidth et * size).toNat s1
      else skipElems fuel size.toNat et s1

/-- The element loop of `skipList`: skip `n` elements. -/
def skipElems : Nat → Nat → Int → List Nat → Except GoErr (List Nat)
  | 0, _, _, _ => .error .outOfFuel
  | _ + 1, 0, _, s => .ok s
  | fuel + 1, n + 1, et, s =>
    match skip fuel et s with
    | .error e => .error e
    | .ok s1 => skipElems fuel n et s1

end

/-- An enum item in the AST: a name and an optional explicit value. -/
structure AstEnumItem where
  name : String
  value : Option Int
  deriving DecidableEq, Repr

/-- An enum declaration in the AST. -/
structure AstEnum where
  name : String
  items : List AstEnumItem
  deriving DecidableEq, Repr

/-- A compiled enum item: a name and its computed `i32` value. -/
structure EnumItem where
  name : String
  value : Int
  deriving DecidableEq, Repr

/-- A compiled enum. -/
structure EnumSpec where
  name : String
  items : List EnumItem
  deriving DecidableEq, Repr

/-- Modelled from the spec: the item-compilation loop of
`compileEnum` (the `compile` package's implementation is not among the
provided sources; only its tests are).  Per the spec (section 4.7,
phase 1): "consecutive items without explicit value take `prev+1`; the
first item defaults to `0`"; explicit values are taken verbatim; "item
name collisions within the enum fail", and per section 7 the error is
annotated with the failing symbol path, here producing a message
containing `cannot compile "Enum.Item"` and
`the name "Item" has already been used` (the exact strings asserted by
`TestCompileEnumFailure`).  `used` holds the names already taken and
`next` the value the next value-less item receives. -/
def compileItems (path : String) (used : List String) (next : Int) :
    List AstEnumItem → Except String (List EnumItem)
  | [] => .ok []
  | it :: rest =>
    if it.name ∈ used then
      .error ("cannot compile \"" ++ path ++ "." ++ it.name ++
        "\": the name \"" ++ it.name ++ "\" has already been used")
    else
      (compileItems path (it.name :: used) (it.value.getD next + 1) rest).map
        (fun items => ⟨it.name, it.value.getD next⟩ :: items)

/-- Modelled from the spec: `compileEnum` compiles an AST enum into an
`EnumSpec`, computing item values as described at `compileItems`. -/
def compileEnum (e : AstEnum) : Except String EnumSpec :=
  (compileItems e.name [] 0 e.items).map (fun items => ⟨e.name, items⟩)

/-- The AST of `enum foo { A, B, C = 10, D, E }`. -/
def fooEnumAst : AstEnum :=
  ⟨"foo", [⟨"A", none⟩, ⟨"B", none⟩, ⟨"C", some 10⟩, ⟨"D", none⟩, ⟨"E", none⟩]⟩

/-- The compiled form the tests expect for `fooEnumAst`. -/
def fooEnumSpec : EnumSpec :=
  ⟨"foo", [⟨"A", 0⟩, ⟨"B", 1⟩, ⟨"C", 10⟩, ⟨"D", 11⟩, ⟨"E", 12⟩]⟩

/-- The AST of `enum Foo { A, B, C, A, D }` (duplicate item name). -/
def dupEnumAst : AstEnum :=
  ⟨"Foo", [⟨"A", none⟩, ⟨"B", none⟩, ⟨"C", none⟩, ⟨"A", none⟩, ⟨"D", none⟩]⟩

/-- The error message `compileItems` produces for `dupEnumAst`. -/
def dupMsg : String :=
  "cannot compile \"Foo.A\": the name \"A\" has already been used"

theorem readBytes_short :
    ∀ (k : Nat) (s : List Nat), s.length < k →
      readBytes k s = .error .unexpectedEOF := by
  intro k
  induction k with
  | zero => intro s hs; omega
  | succ k ih =>
    intro s hs
    cases s with
    | nil => rfl
    | cons b s =>
      simp only [List.length_cons] at hs
      simp [readBytes, ih s (by omega)]

theorem readBytes_ok :
    ∀ (k : Nat) (s : List Nat), k ≤ s.length →
      readBytes k s = .ok (s.take k, s.drop k) := by
  intro k
  induction k with
  | zero => intro s _; rfl
  | succ k ih =>
    intro s hs
    cases s with
    | nil => simp at hs
    | cons b s =>
      simp only [List.length_cons] at hs
      simp [readBytes, ih s (by omega)]

theorem readBytes_ne_eof (k : Nat) (s : List Nat) :
    readBytes k s ≠ .error .eof := by
  rcases lt_or_le s.length k with h | h
  · rw [readBytes_short k s h]; intro hc; cases hc
  · rw [readBytes_ok k s h]; intro hc; cases hc

theorem discardBytes_short :
    ∀ (k : Nat) (s : List Nat), s.length < k →
      discardBytes k s = .error .unexpectedEOF := by
  intro k
  induction k with
  | zero => intro s hs; omega
  | succ k ih =>
    intro s hs
    cases s with
    | nil => rfl
    | cons b s =>
      simp only [List.length_cons] at hs
      simpa [discardBytes] using ih s (by omega)

theorem discardBytes_ok :
    ∀ (k : Nat) (s : List Nat), k ≤ s.length →
      discardBytes k s = .ok (s.drop k) := by
  intro k
  induction k with
  | zero => intro s _; rfl
  | succ k ih =>
    intro s hs
    cases s with
    | nil => simp at hs
    | cons b s =>
      simp only [List.length_cons] at hs
      simpa [discardBytes] using ih s (by omega)

theorem discardBytes_ne_eof (k : Nat) (s : List Nat) :
    discardBytes k s ≠ .error .eof := by
  rcases lt_or_le s.length k with h | h
  · rw [discardBytes_short k s h]; intro hc; cases hc
  · rw [discardBytes_ok k s h]; intro hc; cases hc

theorem discardBytes_append (p rest : List Nat) :
    discardBytes p.length (p ++ rest) = .ok rest := by
  induction p with
  | nil => rfl
  | cons b p ih => simpa [discardBytes] using ih

/-- Claim C1: evaluating `ReadFieldBegin` at inputs beginning with the
stop byte (type code `0`).  The source reads a 2-byte field id even
after the stop byte: a lone stop byte yields an unexpected-EOF error,
and a stop byte followed by two bytes yields a field header with
`more = true`, contradicting the specified `(more = false, nil)`
stop-byte behaviour. -/
theorem readFieldBegin_reads_id_after_stop :
    ReadFieldBegin [0] = .error .unexpectedEOF ∧
    ReadFieldBegin [0, 0, 5] = .ok (⟨0, 5⟩, true, []) ∧
    ReadFieldBegin [8, 0, 1, 99] = .ok (⟨8, 1⟩, true, [99]) :=
  ⟨rfl, rfl, rfl⟩

/-- Claim C2: `ReadBool` maps byte `0` to `false`, byte `1` to `true`,
and any other byte to an invalid-bool error, consuming exactly one
byte. -/
theorem readBool_byte_cases (b : Nat) (rest : List Nat) :
    ReadBool (b :: rest) =
      if b = 0 then .ok (false, rest)
      else if b = 1 then .ok (true, rest)
      else .error (.invalidBool b) := by
  by_cases hb0 : b = 0 <;> by_cases hb1 : b = 1 <;>
    simp [ReadBool, readBytes, hb0, hb1]

/-- Claim C9: a zero-length binary value yields the non-nil empty byte
slice (`some []`, the `[]byte{}` literal of the source, never the
`nil` of the error paths), no error, and consumes nothing beyond the
4-byte length. -/
theorem readBinary_zero_length (rest : List Nat) :
    ReadBinary (0 :: 0 :: 0 :: 0 :: rest) = (some [], none, rest) := rfl

/-- Claim C10: `Skip` treats `SET` and `LIST` identically: both
dispatch to `skipList`, so they consume the same bytes and produce the
same outcome on every input stream. -/
theorem skip_set_eq_skip_list (fuel : Nat) (s : List Nat) :
    skip fuel TSet s = skip fuel TList s := by
  cases fuel with
  | zero => rfl
  | succ n => rfl

/-- Claim C6: whenever the byte source ends before the expected byte
range is complete, the streaming read and discard primitives (and the
scalar reads built on them) report unexpected EOF; plain EOF is never
returned. -/
theorem streaming_eof_is_unexpected (k : Nat) (s : List Nat) :
    (s.length < k →
      readBytes k s = .error .unexpectedEOF ∧
      discardBytes k s = .error .unexpectedEOF) ∧
    readBytes k s ≠ .error .eof ∧
    discardBytes k s ≠ .error .eof ∧
    (s.length < 1 → ReadBool s = .error .unexpectedEOF ∧
      ReadInt8 s = .error .unexpectedEOF) ∧
    (s.length < 2 → ReadInt16 s = .error .unexpectedEOF) ∧
    (s.length < 4 → ReadInt32 s = .error .unexpectedEOF ∧
      (ReadBinary s).2.1 = some .unexpectedEOF) ∧
    (s.length < 8 → ReadInt64 s = .error .unexpectedEOF) := by
  refine ⟨fun h => ⟨readBytes_short k s h, discardBytes_short k s h⟩,
    readBytes_ne_eof k s, discardBytes_ne_eof k s, ?_, ?_, ?_, ?_⟩
  · intro h
    exact ⟨by simp [ReadBool, readBytes_short 1 s h],
      by simp [ReadInt8, readBytes_short 1 s h]⟩
  · intro h
    simp [ReadInt16, readBytes_short 2 s h]
  · intro h
    exact ⟨by simp [ReadInt32, readBytes_short 4 s h],
      by simp [ReadBinary, ReadInt32, readBytes_short 4 s h]⟩
  · intro h
    simp [ReadInt64, readBytes_short 8 s h]

theorem streaming_eof_is_unexpected_witness :
    readBytes 3 [1, 2] = .error .unexpectedEOF ∧
    discardBytes 3 [1, 2] = .error .unexpectedEOF ∧
    ReadInt32 [1, 2] = .error .unexpectedEOF := by
  have h := streaming_eof_is_unexpected 3 [1, 2]
  exact ⟨(h.1 (by decide)).1, (h.1 (by decide)).2,
    (h.2.2.2.2.2.1 (by decide)).1⟩

/-- Claim C3: a negative `i32` length in a binary, list, set, or map
header is rejected with an invalid-length error by `ReadBinary`,
`ReadListBegin`, `ReadSetBegin`, `ReadMapBegin`, and by the
corresponding `Skip` paths, instead of any bytes being read for the
declared elements.  `b0 b1 b2 b3` are the four length bytes and `n`
their value as a signed big-endian `i32`. -/
theorem negative_length_rejected
    (b0 b1 b2 b3 : Nat) (rest : List Nat) (fuel : Nat) (n : Int)
    (hn : n = toSigned 32 (beNat [b0, b1, b2, b3])) (hneg : n < 0) :
    ReadBinary (b0 :: b1 :: b2 :: b3 :: rest) =
      (none, some (.negLength n), rest) ∧
    (∀ et, ReadListBegin (et :: b0 :: b1 :: b2 :: b3 :: rest) =
      .error (.negLength n)) ∧
    (∀ et, ReadSetBegin (et :: b0 :: b1 :: b2 :: b3 :: rest) =
      .error (.negLength n)) ∧
    (∀ kt vt, ReadMapBegin (kt :: vt :: b0 :: b1 :: b2 :: b3 :: rest) =
      .error (.negLength n)) ∧
    skip (fuel + 1) TBinary (b0 :: b1 :: b2 :: b3 :: rest) =
      .error (.negLength n) ∧
    (∀ et, skip (fuel + 2) TList (et :: b0 :: b1 :: b2 :: b3 :: rest) =
      .error (.negLength n)) ∧
    (∀ et, skip (fuel + 2) TSet (et :: b0 :: b1 :: b2 :: b3 :: rest) =
      .error (.negLength n)) ∧
    (∀ kt vt, skip (fuel + 2) TMap (kt :: vt :: b0 :: b1 :: b2 :: b3 :: rest) =
      .error (.negLength n)) := by
  subst hn
  set n := toSigned 32 (beNat [b0, b1, b2, b3]) with hn
  have h32 : ∀ tail : List Nat, ReadInt32 (b0 :: b1 :: b2 :: b3 :: tail) =
      .ok (n, tail) := fun tail => rfl
  have h8 : ∀ (b : Nat) (tail : List Nat), ReadInt8 (b :: tail) =
      .ok (toSigned 8 (beNat [b]), tail) := fun b tail => rfl
  refine ⟨?_, ?_, ?_, ?_, ?_, ?_, ?_, ?_⟩
  · simp [ReadBinary, h32, hneg]
  · intro et
    simp [ReadListBegin, readTypeSizeHeader, h8, h32, hneg]
  · intro et
    simp [ReadSetBegin, readTypeSizeHeader, h8, h32, hneg]
  · intro kt vt
    simp [ReadMapBegin, h8, h32, hneg]
  · simp [skip, fixedWidth, TBinary, TBool, TI8, TDouble, TI16, TI32, TI64,
      h32, hneg]
  · intro et
    simp [skip, skipList, readTypeSizeHeader, fixedWidth, TList, TBinary,
      TBool, TI8, TDouble, TI16, TI32, TI64, TStruct, TMap, TSet,
      h8, h32, hneg]
  · intro et
    simp [skip, skipList, readTypeSizeHeader, fixedWidth, TSet, TBinary,
      TBool, TI8, TDouble, TI16, TI32, TI64, TStruct, TMap, TList,
      h8, h32, hneg]
  · intro kt vt
    simp [skip, skipMap, fixedWidth, TMap, TBinary, TBool, TI8, TDouble,
      TI16, TI32, TI64, TStruct, TSet, TList, h8, h32, hneg]

theorem negative_length_rejected_witness :
    ReadBinary [255, 255, 255, 255] = (none, some (.negLength (-1)), []) ∧
    ReadListBegin [8, 255, 255, 255, 255] = .error (.negLength (-1)) ∧
    ReadMapBegin [8, 8, 255, 255, 255, 255] = .error (.negLength (-1)) ∧
    skip 1 TBinary [255, 255, 255, 255] = .error (.negLength (-1)) := by
  have h := negative_length_rejected 255 255 255 255 [] 0 (-1)
    (by decide) (by decide)
  exact ⟨h.1, h.2.1 8, h.2.2.2.1 8 8, h.2.2.2.2.1⟩

/-- Claim C4: `ReadStructBegin` reads nothing and always succeeds;
`ReadStructEnd` consumes exactly one byte, succeeds iff it is the stop
byte `0`, and fails with an invalid-stop-field error otherwise. -/
theorem struct_begin_end (s : List Nat) (b : Nat) (rest : List Nat)
    (hb : b < 256) :
    ReadStructBegin s = .ok s ∧
    (b = 0 → ReadStructEnd (b :: rest) = .ok rest) ∧
    (b ≠ 0 → ReadStructEnd (b :: rest) =
      .error (.invalidStop (toSigned 8 b))) := by
  have h8 : ReadInt8 (b :: rest) = .ok (toSigned 8 (beNat [b]), rest) := rfl
  have hbe : beNat [b] = b := by simp [beNat]
  refine ⟨rfl, ?_, ?_⟩
  · intro h0
    subst h0
    rfl
  · intro hne
    have hv : toSigned 8 b ≠ 0 := by
      have hm : b % 2 ^ 8 = b := Nat.mod_eq_of_lt hb
      simp only [toSigned, hm]
      split <;> omega
    simp [ReadStructEnd, h8, hbe, hv]

theorem struct_begin_end_witness :
    ReadStructBegin [3] = .ok [3] ∧
    ReadStructEnd [0, 4] = .ok [4] ∧
    ReadStructEnd [7, 1, 2] = .error (.invalidStop 7) := by
  have h := struct_begin_end [3] 7 [1, 2] (by decide)
  have h0 := struct_begin_end [3] 0 [4] (by decide)
  exact ⟨h.1, h0.2.1 rfl, (h.2.2 (by decide)).trans rfl⟩

/-- Claim C5: skipping a map whose key and value types are both
fixed-width consumes the 6-byte header (`keyType`, `valueType`, and
the 4 length bytes `b0..b3` encoding `n`) and then discards exactly
`n * (keyWidth + valueWidth)` further bytes: with `payload` of exactly
that length, the reader is left exactly at `rest`. -/
theorem skip_map_fixed_width
    (fuel : Nat) (kb vb b0 b1 b2 b3 : Nat) (payload rest : List Nat)
    (hk : 0 < fixedWidth (toSigned 8 (beNat [kb])))
    (hv : 0 < fixedWidth (toSigned 8 (beNat [vb])))
    (n : Int) (hn : n = toSigned 32 (beNat [b0, b1, b2, b3])) (hnn : 0 ≤ n)
    (hlen : (payload.length : Int) =
      n * (fixedWidth (toSigned 8 (beNat [kb])) +
        fixedWidth (toSigned 8 (beNat [vb])))) :
    skip (fuel + 2) TMap
      (kb :: vb :: b0 :: b1 :: b2 :: b3 :: (payload ++ rest)) = .ok rest := by
  subst hn
  have h1 : skip (fuel + 2) TMap
      (kb :: vb :: b0 :: b1 :: b2 :: b3 :: (payload ++ rest)) =
      skipMap (fuel + 1)
        (kb :: vb :: b0 :: b1 :: b2 :: b3 :: (payload ++ rest)) := rfl
  have h2 : skipMap (fuel + 1)
      (kb :: vb :: b0 :: b1 :: b2 :: b3 :: (payload ++ rest)) =
      (if toSigned 32 (beNat [b0, b1, b2, b3]) < 0 then
        .error (.negLength (toSigned 32 (beNat [b0, b1, b2, b3])))
      else if 0 < fixedWidth (toSigned 8 (beNat [kb])) ∧
          0 < fixedWidth (toSigned 8 (beNat [vb])) then
        discardBytes ((toSigned 32 (beNat [b0, b1, b2, b3])) *
          (fixedWidth (toSigned 8 (beNat [kb])) +
            fixedWidth (toSigned 8 (beNat [vb])))).toNat (payload ++ rest)
      else skipPairs fuel (toSigned 32 (beNat [b0, b1, b2, b3])).toNat
        (toSigned 8 (beNat [kb])) (toSigned 8 (beNat [vb]))
        (payload ++ rest)) := rfl
  rw [h1, h2, if_neg (not_lt.mpr hnn), if_pos ⟨hk, hv⟩]
  have h3 : ((toSigned 32 (beNat [b0, b1, b2, b3])) *
      (fixedWidth (toSigned 8 (beNat [kb])) +
        fixedWidth (toSigned 8 (beNat [vb])))).toNat = payload.length := by
    rw [← hlen]
    simp
  rw [h3]
  exact discardBytes_append payload rest

theorem skip_map_fixed_width_witness :
    skip 2 TMap
      (8 :: 8 :: 0 :: 0 :: 0 :: 3 :: (List.replicate 24 0 ++ [9, 9])) =
      .ok [9, 9] := by
  exact skip_map_fixed_width 0 8 8 0 0 0 3 (List.replicate 24 0) [9, 9]
    (by decide) (by decide) 3 (by decide) (by decide) (by decide)

theorem compileItems_spec (p : String) :
    ∀ (l : List AstEnumItem) (used : List String) (next : Int)
      (out : List EnumItem),
      compileItems p used next l = .ok out →
      out.length = l.length ∧
      ∀ i, i < l.length →
        (out.getD i ⟨"", 0⟩).name = (l.getD i ⟨"", none⟩).name ∧
        (out.getD i ⟨"", 0⟩).value =
          ((l.getD i ⟨"", none⟩).value).getD
            (if i = 0 then next
             else (out.getD (i - 1) ⟨"", 0⟩).value + 1) := by
  intro l
  induction l with
  | nil =>
    intro used next out h
    simp only [compileItems, Except.ok.injEq] at h
    subst h
    simp
  | cons it tl ih =>
    intro used next out h
    by_cases hmem : it.name ∈ used
    · simp [compileItems, hmem] at h
    · cases hrec : compileItems p (it.name :: used) (it.value.getD next + 1) tl with
      | error e =>
        simp [compileItems, hmem, hrec, Except.map] at h
      | ok items =>
        simp only [compileItems, if_neg hmem, hrec, Except.map,
          Except.ok.injEq] at h
        subst h
        obtain ⟨hlen, hvals⟩ := ih (it.name :: used) (it.value.getD next + 1)
          items hrec
        refine ⟨by simp [hlen], ?_⟩
        intro i hi
        cases i with
        | zero => simp
        | succ j =>
          simp only [List.getD_cons_succ]
          have hj : j < tl.length := by
            simpa using hi
          obtain ⟨hname, hval⟩ := hvals j hj
          refine ⟨hname, ?_⟩
          rw [hval]
          congr 1
          cases j with
          | zero => simp
          | succ j2 => simp

/-- Claim C7: for every enum compiled by `compileEnum`, an item
without an explicit value receives the previous item's value plus one,
a first item without an explicit value receives `0`, and explicit
values are taken verbatim (names are kept in order). -/
theorem compileEnum_value_defaulting (e : AstEnum) (sp : EnumSpec)
    (h : compileEnum e = .ok sp) :
    sp.name = e.name ∧
    sp.items.length = e.items.length ∧
    ∀ i, i < e.items.length →
      (sp.items.getD i ⟨"", 0⟩).name = (e.items.getD i ⟨"", none⟩).name ∧
      (sp.items.getD i ⟨"", 0⟩).value =
        ((e.items.getD i ⟨"", none⟩).value).getD
          (if i = 0 then 0
           else (sp.items.getD (i - 1) ⟨"", 0⟩).value + 1) := by
  cases hrec : compileItems e.name [] 0 e.items with
  | error msg =>
    rw [compileEnum, hrec] at h
    cases h
  | ok items =>
    rw [compileEnum, hrec] at h
    cases h
    obtain ⟨hlen, hvals⟩ := compileItems_spec e.name e.items [] 0 items hrec
    exact ⟨rfl, hlen, hvals⟩

theorem compileEnum_value_defaulting_witness :
    compileEnum fooEnumAst = .ok fooEnumSpec ∧
    fooEnumSpec.items.length = fooEnumAst.items.length ∧
    (fooEnumSpec.items.getD 3 ⟨"", 0⟩).value =
      (fooEnumSpec.items.getD 2 ⟨"", 0⟩).value + 1 := by
  have hok : compileEnum fooEnumAst = .ok fooEnumSpec := rfl
  have h := compileEnum_value_defaulting fooEnumAst fooEnumSpec hok
  refine ⟨hok, h.2.1, ?_⟩
  have h3 := (h.2.2 3 (by simp [fooEnumAst])).2
  simpa [fooEnumAst] using h3

theorem compileItems_dup_fails (p : String) :
    ∀ (l : List AstEnumItem) (used : List String) (next : Int),
      (¬ (l.map AstEnumItem.name).Nodup ∨
        ∃ n, n ∈ l.map AstEnumItem.name ∧ n ∈ used) →
      ∃ msg, compileItems p used next l = .error msg := by
  intro l
  induction l with
  | nil =>
    intro used next h
    rcases h with h | ⟨n, hn, _⟩
    · simp at h
    · simp at hn
  | cons it tl ih =>
    intro used next h
    by_cases hmem : it.name ∈ used
    · refine ⟨"cannot compile \"" ++ p ++ "." ++ it.name ++
        "\": the name \"" ++ it.name ++ "\" has already been used", ?_⟩
      simp [compileItems, hmem]
    · have hd : ¬ ((tl.map AstEnumItem.name).Nodup) ∨
          ∃ n, n ∈ tl.map AstEnumItem.name ∧ n ∈ it.name :: used := by
        rcases h with h | ⟨n, hn, hu⟩
        · rw [List.map_cons, List.nodup_cons] at h
          rcases not_and_or.mp h with h1 | h2
          · exact Or.inr ⟨it.name, not_not.mp h1, List.mem_cons_self _ _⟩
          · exact Or.inl h2
        · rw [List.map_cons, List.mem_cons] at hn
          rcases hn with rfl | hn
          · exact absurd hu hmem
          · exact Or.inr ⟨n, hn, List.mem_cons_of_mem _ hu⟩
      obtain ⟨msg, hmsg⟩ := ih (it.name :: used) (it.value.getD next + 1) hd
      exact ⟨msg, by simp [compileItems, hmem, hmsg, Except.map]⟩

/-- Claim C8: compiling an enum containing two items of the same name
fails, and for `enum Foo { A, B, C, A, D }` the error message contains
both required substrings. -/
theorem compileEnum_duplicate_name :
    (∀ e : AstEnum, ¬ (e.items.map AstEnumItem.name).Nodup →
      ∃ msg, compileEnum e = .error msg) ∧
    compileEnum dupEnumAst = .error dupMsg ∧
    (∃ x y, dupMsg = x ++ "cannot compile \"Foo.A\"" ++ y) ∧
    (∃ x y, dupMsg = x ++ "the name \"A\" has already been used" ++ y) := by
  refine ⟨?_, ?_, ?_, ?_⟩
  · intro e hdup
    obtain ⟨msg, hmsg⟩ := compileItems_dup_fails e.name e.items [] 0
      (Or.inl hdup)
    exact ⟨msg, by simp [compileEnum, hmsg, Except.map]⟩
  · rfl
  · exact ⟨"", ": the name \"A\" has already been used", by decide⟩
  · exact ⟨"cannot compile \"Foo.A\": ", "", by decide⟩

theorem compileEnum_duplicate_name_witness :
    (∃ msg, compileEnum dupEnumAst = .error msg) ∧
    compileEnum dupEnumAst = .error dupMsg := by
  have h := compileEnum_duplicate_name
  exact ⟨h.1 dupEnumAst (by simp [dupEnumAst]), h.2.1⟩
